import Mathlib

/-!
Shallow embedding of `src/script.js` ("Track My Bus" demo page).

Pure data (routes, coordinates) is translated directly; the DOM, the Leaflet
map, timers and the OSRM HTTP service are modelled as explicit state records
and response oracles.  Latitude/longitude values are embedded as exact
rationals; the haversine distance, which the source computes with
floating-point trigonometry, is modelled over the reals.
-/

namespace TrackMyBus

/-- A coordinate pair `[lat, lng]` (the source stores 2-element arrays). -/
abbrev Coord := ℚ × ℚ

/-- One stop of a route: `{ name, coords }`. -/
structure Stop where
  name : String
  coords : Coord
deriving DecidableEq

instance : Inhabited Stop := ⟨⟨"", (0, 0)⟩⟩

/-- One route: `{ color, stops }`. -/
structure Route where
  color : String
  stops : List Stop
deriving DecidableEq

/-- The hardcoded `ROUTES` table (object keys in insertion order). -/
def ROUTES : List (String × Route) :=
  [ ("Bus 101",
     { color := "#e74c3c"
       stops :=
         [ ⟨"Golden Temple", (31.6200, 74.8765)⟩
         , ⟨"Hall Bazaar", (31.6270, 74.8750)⟩
         , ⟨"Ram Bagh", (31.6315, 74.8778)⟩
         , ⟨"Railway Station", (31.6340, 74.8790)⟩
         , ⟨"Bus Stand", (31.6360, 74.8808)⟩ ] })
  , ("Bus 202",
     { color := "#2ecc71"
       stops :=
         [ ⟨"Ranjit Avenue", (31.6510, 74.8545)⟩
         , ⟨"GNDU", (31.6415, 74.8255)⟩
         , ⟨"Lawrence Road", (31.6410, 74.8690)⟩
         , ⟨"Bus Stand", (31.6360, 74.8808)⟩ ] })
  , ("Bus 303",
     { color := "#3498db"
       stops :=
         [ ⟨"Golden Temple", (31.6200, 74.8765)⟩
         , ⟨"Hall Bazaar", (31.6270, 74.8750)⟩
         , ⟨"GNDU", (31.6415, 74.8255)⟩
         , ⟨"Ranjit Avenue", (31.6510, 74.8545)⟩ ] }) ]

/-- `const ARRIVAL_THRESHOLD_M = 120`. -/
def ARRIVAL_THRESHOLD_M : ℕ := 120

/-- `const STEP_MS = 700`. -/
def STEP_MS : ℕ := 700

/-- `arraysEqual` applied to two `[lat, lng]` arrays: both have length 2, so
the element-wise comparison is equality of the two pairs. -/
def arraysEqual (a b : Coord) : Bool :=
  decide (a = b)

/-! ### OSRM fetch model (`fetchRoadForStops`)

Each consecutive stop pair produces one HTTP query; its outcome is one of:
a successful response carrying the (possibly empty) geometry coordinate
list, already mapped to `[lat, lng]`; an ok response whose `routes` field is
missing or empty; or a thrown error (network failure or non-ok status). -/

/-- Outcome of the OSRM query for one segment. -/
inductive OsrmResult where
  | ok (seg : List Coord)
  | noRoutes
  | fetchError
deriving DecidableEq

/-- The branches of the segment loop that fall back to a straight line:
a thrown fetch error, a response without routes, or an empty geometry. -/
def osrmFailed : OsrmResult → Bool
  | .ok seg => seg.isEmpty
  | .noRoutes => true
  | .fetchError => true

/-- The straight-line fallback body:
`if (!fullCoords.length) fullCoords.push(from); fullCoords.push(to);`. -/
def straightFallback (acc : List Coord) (fromC toC : Coord) : List Coord :=
  (if acc.isEmpty then acc ++ [fromC] else acc) ++ [toC]

/-- The body of one iteration of the segment loop in `fetchRoadForStops`,
acting on the accumulated `fullCoords`. -/
def segStep (acc : List Coord) (fromC toC : Coord) : OsrmResult → List Coord
  | .ok seg =>
      if seg.isEmpty then straightFallback acc fromC toC
      else if ¬ acc.isEmpty ∧ arraysEqual (acc.getLastD (0, 0)) (seg.headD (0, 0)) then
        acc ++ seg.drop 1
      else acc ++ seg
  | .noRoutes => straightFallback acc fromC toC
  | .fetchError => straightFallback acc fromC toC

/-- `fullCoords` after the first `n` iterations of the segment loop,
given the response oracle `resp` (segment `i` gets `resp i`). -/
def fetchAccum (resp : ℕ → OsrmResult) (stops : List Stop) : ℕ → List Coord
  | 0 => []
  | n + 1 =>
      segStep (fetchAccum resp stops n)
        ((stops.getD n default).coords) ((stops.getD (n + 1) default).coords) (resp n)

/-- One of the two identical refill blocks after the loop:
`if (!fullCoords.length) { stops.forEach(s => fullCoords.push(s.coords)) }`. -/
def fetchRefill (stops : List Stop) (full : List Coord) : List Coord :=
  if full.isEmpty then full ++ stops.map Stop.coords else full

/-- `fetchRoadForStops(stops)` as a function of the per-segment OSRM
responses: early returns for zero and one stop, then the segment loop,
then the two (identical) empty-result refills. -/
def fetchRoadForStops (resp : ℕ → OsrmResult) (stops : List Stop) : List Coord :=
  match stops with
  | [] => []
  | [s] => [s.coords]
  | _ => fetchRefill stops (fetchRefill stops (fetchAccum resp stops (stops.length - 1)))

/-- Spec-side join: concatenate the per-segment sequences in order, dropping
a segment's first coordinate when it equals the last accumulated one. -/
def joinStep (acc seg : List Coord) : List Coord :=
  if acc ≠ [] ∧ seg.head? = acc.getLast? then acc ++ seg.tail else acc ++ seg

/-- Spec-side dedup-concatenation of all segment sequences. -/
def joinSegments (segs : List (List Coord)) : List Coord :=
  segs.foldl joinStep []

/-! ### `safeId` -/

/-- `replace(/\s+/g, "_")` on a character list: each maximal whitespace run
becomes a single underscore.  The flag records whether the previous
character was part of a whitespace run. -/
def collapseWsAux : Bool → List Char → List Char
  | _, [] => []
  | prevWs, c :: rest =>
      if c.isWhitespace then
        (if prevWs then [] else ['_']) ++ collapseWsAux true rest
      else c :: collapseWsAux false rest

/-- A character kept by `replace(/[^\w\-]/g, "")`. -/
def keptChar (c : Char) : Bool :=
  c.isAlpha || c.isDigit || c = '_' || c = '-'

/-- `safeId(name)`: whitespace runs to `_`, then drop non-word characters. -/
def safeId (name : String) : String :=
  String.mk ((collapseWsAux false name.data).filter keptChar)

/-! ### Haversine distance (`distanceMeters`)

The source computes this with JavaScript floating point; the model uses the
real numbers. -/

/-- `Math.atan2(y, x)`, the argument of the complex number `x + y*i`. -/
noncomputable def atan2 (y x : ℝ) : ℝ :=
  Complex.arg ⟨x, y⟩

/-- `distanceMeters(lat1, lon1, lat2, lon2)`: haversine distance in meters
with Earth radius 6,371,000 m. -/
noncomputable def distanceMeters (lat1 lon1 lat2 lon2 : ℝ) : ℝ :=
  let R : ℝ := 6371000
  let toRad : ℝ → ℝ := fun x => x * Real.pi / 180
  let dLat := toRad (lat2 - lat1)
  let dLon := toRad (lon2 - lon1)
  let a := Real.sin (dLat / 2) ^ 2 +
    Real.cos (toRad lat1) * Real.cos (toRad lat2) * Real.sin (dLon / 2) ^ 2
  let c := 2 * atan2 (Real.sqrt a) (Real.sqrt (1 - a))
  R * c

/-- `distanceMeters` applied to two stored coordinate pairs. -/
noncomputable def distCoord (p q : Coord) : ℝ :=
  distanceMeters (p.1 : ℝ) (p.2 : ℝ) (q.1 : ℝ) (q.2 : ℝ)

/-! ### Notification capabilities and effects -/

/-- The browser capabilities tested by the notification blocks. -/
structure Caps where
  /-- `"Notification" in window` -/
  notifAvailable : Bool
  /-- `Notification.permission === "granted"` -/
  notifGranted : Bool
  /-- `"vibrate" in navigator` -/
  vibrateSupported : Bool
  /-- `notifySound` is truthy -/
  soundLoaded : Bool
deriving DecidableEq

/-- An observable side effect of marking a stop reached. -/
inductive Effect where
  /-- `new Notification(msg)` -/
  | notify (msg : String)
  /-- `navigator.vibrate([200, 100, 200])` -/
  | vibrate
  /-- `notifySound.currentTime = 0; notifySound.play()` (replay from start) -/
  | playSound
deriving DecidableEq

/-- The three guarded effects fired when a stop is marked reached. -/
def arrivalEffects (caps : Caps) (msg : String) : List Effect :=
  (if caps.notifAvailable && caps.notifGranted then [Effect.notify msg] else []) ++
  (if caps.vibrateSupported then [Effect.vibrate] else []) ++
  (if caps.soundLoaded then [Effect.playSound] else [])

/-! ### Timeline pills and the marker animation -/

/-- The text of a pill's `.eta` element. -/
inductive EtaText where
  /-- the initial `--` -/
  | dashes
  /-- `"Arrived"` -/
  | arrived
  /-- `` `${m} min` `` -/
  | minutes (m : ℤ)
deriving DecidableEq

/-- One stop pill: whether it has the `active` class, and its ETA text. -/
structure Pill where
  active : Bool
  eta : EtaText
deriving DecidableEq

instance : Inhabited Pill := ⟨⟨false, EtaText.dashes⟩⟩

/-- The pills created for a timeline (`--` text, no `active` class). -/
def freshPills (stops : List Stop) : List Pill :=
  stops.map (fun _ => ⟨false, EtaText.dashes⟩)

/-- State of one bus's animation, together with the visible traces it has
produced so far. -/
structure AnimState where
  idx : ℕ
  nextStopIndex : ℕ
  markerPos : Coord
  /-- every `marker.setLatLng` argument, in order -/
  markerTrace : List Coord
  pills : List Pill
  /-- every notification/vibration/sound effect, in order -/
  fx : List Effect
  /-- the indices at which the popup content was refreshed -/
  popupUpdates : List ℕ
deriving DecidableEq

/-- The proximity check of `step()`: when there still is a next stop and its
pill element exists, either mark it arrived (strictly within the threshold)
and fire the effects, or print the crude ETA. -/
def proximityUpdate {α : Type} [LinearOrderedField α] [FloorRing α]
    (dm : Coord → Coord → α) (caps : Caps) (busName : String)
    (stops : List Stop) (p : Coord) (s : AnimState) : AnimState :=
  if s.nextStopIndex < stops.length then
    match s.pills.get? s.nextStopIndex with
    | none => s
    | some pill =>
        if dm p (stops.getD s.nextStopIndex default).coords
            < ((ARRIVAL_THRESHOLD_M : ℕ) : α) then
          { s with
            pills := s.pills.set s.nextStopIndex ⟨true, EtaText.arrived⟩
            fx := s.fx ++ arrivalEffects caps
              (busName ++ " has arrived at " ++ (stops.getD s.nextStopIndex default).name)
            nextStopIndex := s.nextStopIndex + 1 }
        else
          { s with
            pills := s.pills.set s.nextStopIndex
              ⟨pill.active, EtaText.minutes (max 1 (round
                (dm p (stops.getD s.nextStopIndex default).coords / 200)))⟩ }
  else s

/-- `marker.setPopupContent` every tenth step. -/
def popupRefresh (s : AnimState) (i : ℕ) : AnimState :=
  if i % 10 = 0 then { s with popupUpdates := s.popupUpdates ++ [i] } else s

/-- One execution of `step()`: return unchanged once the index has reached
the end, otherwise move the marker to the current coordinate, refresh the
popup every tenth step, run the proximity check, and advance the index by
one (the next step is scheduled with `setTimeout(step, STEP_MS)`). -/
def stepOnce {α : Type} [LinearOrderedField α] [FloorRing α]
    (dm : Coord → Coord → α) (caps : Caps) (busName : String)
    (coords : List Coord) (stops : List Stop) (s : AnimState) : AnimState :=
  if s.idx ≥ coords.length then s
  else
    { proximityUpdate dm caps busName stops (coords.getD s.idx (0, 0))
        (popupRefresh
          { s with
            markerPos := coords.getD s.idx (0, 0)
            markerTrace := s.markerTrace ++ [coords.getD s.idx (0, 0)] }
          s.idx)
      with idx := s.idx + 1 }

/-- Run the scheduled `step()` calls until the index reaches the end of the
coordinate list. -/
def animRun {α : Type} [LinearOrderedField α] [FloorRing α]
    (dm : Coord → Coord → α) (caps : Caps) (busName : String)
    (coords : List Coord) (stops : List Stop) (s : AnimState) : AnimState :=
  if h : s.idx < coords.length then
    animRun dm caps busName coords stops (stepOnce dm caps busName coords stops s)
  else s
termination_by coords.length - s.idx
decreasing_by
  have hidx : (stepOnce dm caps busName coords stops s).idx = s.idx + 1 := by
    unfold stepOnce
    rw [if_neg (Nat.not_le.mpr h)]
  omega

/-- The initialisation of `animateAlongRoad` before the first `step()`:
`nextStopIndex = 1`, and when the first stop's pill exists it is marked
arrived at once and the start effects fire. -/
def animInit (caps : Caps) (busName : String) (stops : List Stop)
    (markerPos0 : Coord) (pills : List Pill) : AnimState :=
  if 0 < stops.length then
    match pills.get? 0 with
    | none =>
        { idx := 0, nextStopIndex := 1, markerPos := markerPos0, markerTrace := []
          pills := pills, fx := [], popupUpdates := [] }
    | some _ =>
        { idx := 0, nextStopIndex := 1, markerPos := markerPos0, markerTrace := []
          pills := pills.set 0 ⟨true, EtaText.arrived⟩
          fx := arrivalEffects caps
            (busName ++ " has started at " ++ (stops.getD 0 default).name)
          popupUpdates := [] }
  else
    { idx := 0, nextStopIndex := 1, markerPos := markerPos0, markerTrace := []
      pills := pills, fx := [], popupUpdates := [] }

/-- `animateAlongRoad(busName, coords, marker, stops)`: `none` when there is
nothing to animate (empty coordinate list or missing marker), otherwise the
final state once the stepping has terminated. -/
def animateAlongRoad {α : Type} [LinearOrderedField α] [FloorRing α]
    (dm : Coord → Coord → α) (caps : Caps) (busName : String)
    (coords : List Coord) (marker : Option Coord) (stops : List Stop)
    (pills : List Pill) : Option AnimState :=
  match marker with
  | none => none
  | some m0 =>
      if coords.isEmpty then none
      else some (animRun dm caps busName coords stops (animInit caps busName stops m0 pills))

/-! ### `populateUI`: the From/To dropdowns -/

/-- All stop names of all routes, in insertion order (with repetitions). -/
def allStopNames (routes : List (String × Route)) : List String :=
  routes.flatMap (fun br => br.2.stops.map Stop.name)

/-- The `stopsSet` `Set`: first occurrences in insertion order. -/
def stopsSet (routes : List (String × Route)) : List String :=
  (allStopNames routes).dedup

/-- `Array.from(stopsSet).sort()`: ascending lexicographic order.  (The stop
names are ASCII, where JavaScript's UTF-16 ordering and this one agree.) -/
def sortedStopNames (routes : List (String × Route)) : List String :=
  (stopsSet routes).insertionSort (fun a b => a ≤ b)

/-- One `<option>` element. -/
structure OptionEl where
  value : String
  text : String
deriving DecidableEq

/-- The placeholder written by `innerHTML`: `<option value=''>-- choose --</option>`. -/
def placeholderOption : OptionEl :=
  ⟨"", "-- choose --"⟩

/-- The option list of `#fromSelect` after `populateUI`. -/
def fromOptions (routes : List (String × Route)) : List OptionEl :=
  placeholderOption :: (sortedStopNames routes).map (fun n => ⟨n, n⟩)

/-- The option list of `#toSelect` after `populateUI`. -/
def toOptions (routes : List (String × Route)) : List OptionEl :=
  placeholderOption :: (sortedStopNames routes).map (fun n => ⟨n, n⟩)

/-! ### Route matching (`startTracking`) -/

/-- One entry of the `matched` array. -/
structure Matched where
  busName : String
  color : String
  subStops : List Stop
deriving DecidableEq

/-- `Array.prototype.indexOf`: index of the first occurrence, `-1` if absent. -/
def jsIndexOf : List String → String → ℤ
  | [], _ => -1
  | y :: ys, x =>
      if y = x then 0
      else if jsIndexOf ys x = -1 then -1 else jsIndexOf ys x + 1

/-- The body of the matching loop of `startTracking` for one route:
`startIdx !== -1 && endIdx !== -1 && startIdx < endIdx`, and on success the
inclusive slice `stops.slice(startIdx, endIdx + 1)`. -/
def matchedFor (busName : String) (r : Route) (fr toSel : String) : Option Matched :=
  let names := r.stops.map Stop.name
  let startIdx := jsIndexOf names fr
  let endIdx := jsIndexOf names toSel
  if startIdx ≠ -1 ∧ endIdx ≠ -1 ∧ startIdx < endIdx then
    some ⟨busName, r.color, (r.stops.drop startIdx.toNat).take (endIdx.toNat + 1 - startIdx.toNat)⟩
  else none

/-- The `matched` array built by `startTracking` (push order = route order). -/
def matchedRoutes (routes : List (String × Route)) (fr toSel : String) : List Matched :=
  routes.filterMap (fun br => matchedFor br.1 br.2 fr toSel)

/-! ### Global visual registries and re-rendering -/

/-- Assoc-list read of a JavaScript object field. -/
def jsGet {β : Type} (m : List (String × β)) (k : String) : Option β :=
  match m.find? (fun p => p.1 == k) with
  | some p => some p.2
  | none => none

/-- Assignment `obj[k] = v` on a JavaScript object: replace when present,
append otherwise. -/
def jsSet {β : Type} (m : List (String × β)) (k : String) (v : β) : List (String × β) :=
  if m.any (fun p => p.1 == k) then
    m.map (fun p => if p.1 == k then (k, v) else p)
  else m ++ [(k, v)]

/-- The global registries and the DOM/timer resources they reference. -/
structure VisualState where
  /-- `activePolylines`: bus id to the polyline's coordinate list -/
  activePolylines : List (String × List Coord)
  /-- `activeMarkers`: bus id to the marker's initial position -/
  activeMarkers : List (String × Coord)
  /-- `activeAnimations`: bus id to its pending `setTimeout` id -/
  activeAnimations : List (String × ℕ)
  /-- `activeTimelines`: the `Set` of bus ids with a timeline -/
  activeTimelines : List String
  /-- the children of `#timeline-wrap` -/
  timelineDom : List String
  /-- ids of timers that are scheduled and not yet cancelled -/
  liveTimers : List ℕ
  /-- fresh-id counter for layers and timers -/
  nextId : ℕ
deriving DecidableEq

/-- `clearActiveVisuals`: remove layers, cancel every timer referenced by
`activeAnimations`, reset the registries, clear `#timeline-wrap` and the
timeline set. -/
def clearActiveVisuals (s : VisualState) : VisualState :=
  { s with
    activePolylines := []
    activeMarkers := []
    activeAnimations := []
    activeTimelines := []
    timelineDom := []
    liveTimers := s.liveTimers.filter (fun t => !(s.activeAnimations.any (fun p => p.2 == t))) }

/-- `createTimeline(busName, stops)`: skipped entirely when the bus already
has a timeline; otherwise one container is appended and the id recorded. -/
def createTimeline (s : VisualState) (busName : String) : VisualState :=
  if safeId busName ∈ s.activeTimelines then s
  else
    { s with
      timelineDom := s.timelineDom ++ [safeId busName]
      activeTimelines := s.activeTimelines ++ [safeId busName] }

/-- The timer bookkeeping of `animateAlongRoad`: clear the bus's previous
pending timer if any, then schedule a fresh one and record it. -/
def registerAnimation (s : VisualState) (busName : String) : VisualState :=
  match jsGet s.activeAnimations (safeId busName) with
  | some t =>
      { s with
        liveTimers := s.liveTimers.erase t ++ [s.nextId]
        activeAnimations := jsSet s.activeAnimations (safeId busName) s.nextId
        nextId := s.nextId + 1 }
  | none =>
      { s with
        liveTimers := s.liveTimers ++ [s.nextId]
        activeAnimations := jsSet s.activeAnimations (safeId busName) s.nextId
        nextId := s.nextId + 1 }

/-- `L.polyline(fullCoords, ...).addTo(map); activePolylines[safeId] = polyline`. -/
def addPolyline (s : VisualState) (bn : String) (coords : List Coord) : VisualState :=
  { s with
    activePolylines := jsSet s.activePolylines (safeId bn) coords
    nextId := s.nextId + 1 }

/-- `L.marker(fullCoords[0], ...).addTo(map); activeMarkers[safeId] = marker`. -/
def addMarker (s : VisualState) (bn : String) (pos : Coord) : VisualState :=
  { s with
    activeMarkers := jsSet s.activeMarkers (safeId bn) pos
    nextId := s.nextId + 1 }

/-- The per-route body of `startTracking`'s main loop: create the timeline,
fetch the road coordinates, draw the polyline, create the marker at the
first coordinate, start the animation.  `resp` is the OSRM response oracle
per bus. -/
def setupBus (resp : String → ℕ → OsrmResult) (s : VisualState) (m : Matched) : VisualState :=
  registerAnimation
    (addMarker
      (addPolyline (createTimeline s m.busName) m.busName
        (fetchRoadForStops (resp m.busName) m.subStops))
      m.busName
      ((fetchRoadForStops (resp m.busName) m.subStops).getD 0 (0, 0)))
    m.busName

/-- The accepted branch of `startTracking`: clear previous visuals, then set
up every matched route in order. -/
def startTrackingVisuals (resp : String → ℕ → OsrmResult) (s : VisualState)
    (matched : List Matched) : VisualState :=
  matched.foldl (setupBus resp) (clearActiveVisuals s)

/-- An externally visible action of `startTracking` other than rendering. -/
inductive TrackAction where
  | alert (msg : String)
  | fitBounds
  | scrollTimeline
deriving DecidableEq

/-- `startTracking()`: reject empty selections, reject pairs no route
serves (both with an alert, before anything is cleared or drawn), otherwise
re-render the matched routes. -/
def startTracking (resp : String → ℕ → OsrmResult) (routes : List (String × Route))
    (fr toSel : String) (s : VisualState) : VisualState × List TrackAction :=
  if fr = "" ∨ toSel = "" then
    (s, [TrackAction.alert "Please select both From and To stops."])
  else if (matchedRoutes routes fr toSel).isEmpty then
    (s, [TrackAction.alert "No buses found for that route inside Amritsar (demo). Try different pair."])
  else
    (startTrackingVisuals resp s (matchedRoutes routes fr toSel),
      [TrackAction.fitBounds, TrackAction.scrollTimeline])

/-- Bookkeeping invariant: every registry holds at most one entry per key,
and the timeline container mirrors the timeline set. -/
def RegistriesOk (s : VisualState) : Prop :=
  (s.activePolylines.map Prod.fst).Nodup ∧
  (s.activeMarkers.map Prod.fst).Nodup ∧
  (s.activeAnimations.map Prod.fst).Nodup ∧
  s.activeTimelines.Nodup ∧
  s.timelineDom = s.activeTimelines

/-! ### Inputs used by concrete counterexamples and witnesses -/

/-- Three stops on a line, exercising the junction deduplication. -/
def stopsABC : List Stop :=
  [⟨"A", (0, 0)⟩, ⟨"B", (1, 0)⟩, ⟨"C", (2, 0)⟩]

/-- OSRM succeeds on both segments of `stopsABC`; the second segment's
geometry is the single point `(1, 0)`, equal to the junction already
accumulated. -/
def respSingleton : ℕ → OsrmResult
  | 0 => OsrmResult.ok [(0, 0), (1, 0)]
  | _ => OsrmResult.ok [(1, 0)]

/-- A one-point road used by concrete animation witnesses. -/
def coordsW : List Coord :=
  [((0 : ℚ), (0 : ℚ))]

/-- A browser with every capability available. -/
def capsAll : Caps :=
  ⟨true, true, true, true⟩

/-- An animation state at the start of `coordsW`, pills freshly created for
`stopsABC`. -/
def stateW : AnimState :=
  { idx := 0, nextStopIndex := 1, markerPos := (0, 0), markerTrace := []
    pills := freshPills stopsABC, fx := [], popupUpdates := [] }

/-! ### Helper lemmas about the segment loop -/

theorem straightFallback_extend (acc : List Coord) (fromC toC : Coord) :
    ∃ t, straightFallback acc fromC toC = acc ++ t := by
  unfold straightFallback
  by_cases h : acc.isEmpty = true
  · rw [if_pos h, List.append_assoc]
    exact ⟨[fromC] ++ [toC], rfl⟩
  · rw [if_neg h]
    exact ⟨[toC], rfl⟩

theorem straightFallback_ne_nil (acc : List Coord) (fromC toC : Coord) :
    straightFallback acc fromC toC ≠ [] := by
  unfold straightFallback
  intro h
  rcases List.append_eq_nil.mp h with ⟨-, h2⟩
  exact List.cons_ne_nil _ _ h2

/-- Every branch of the segment loop only appends to `fullCoords`. -/
theorem segStep_extend (acc : List Coord) (fromC toC : Coord) (r : OsrmResult) :
    ∃ t, segStep acc fromC toC r = acc ++ t := by
  cases r with
  | ok seg =>
      simp only [segStep]
      by_cases hseg : seg.isEmpty = true
      · rw [if_pos hseg]
        exact straightFallback_extend acc fromC toC
      · rw [if_neg hseg]
        by_cases hdup : ¬ acc.isEmpty = true ∧
            arraysEqual (acc.getLastD (0, 0)) (seg.headD (0, 0)) = true
        · rw [if_pos hdup]
          exact ⟨seg.drop 1, rfl⟩
        · rw [if_neg hdup]
          exact ⟨seg, rfl⟩
  | noRoutes => exact straightFallback_extend acc fromC toC
  | fetchError => exact straightFallback_extend acc fromC toC

/-- Every branch of the segment loop leaves `fullCoords` non-empty. -/
theorem segStep_ne_nil (acc : List Coord) (fromC toC : Coord) (r : OsrmResult) :
    segStep acc fromC toC r ≠ [] := by
  cases r with
  | ok seg =>
      simp only [segStep]
      by_cases hseg : seg.isEmpty = true
      · rw [if_pos hseg]
        exact straightFallback_ne_nil acc fromC toC
      · rw [if_neg hseg]
        have hsegne : seg ≠ [] := fun h => hseg (by simp [h])
        by_cases hdup : ¬ acc.isEmpty = true ∧
            arraysEqual (acc.getLastD (0, 0)) (seg.headD (0, 0)) = true
        · rw [if_pos hdup]
          have hacc : acc ≠ [] := fun h => hdup.1 (by simp [h])
          intro h
          exact hacc (List.append_eq_nil.mp h).1
        · rw [if_neg hdup]
          intro h
          exact hsegne (List.append_eq_nil.mp h).2
  | noRoutes => exact straightFallback_ne_nil acc fromC toC
  | fetchError => exact straightFallback_ne_nil acc fromC toC

/-- The accumulated list only grows as the segment loop proceeds. -/
theorem fetchAccum_extend (resp : ℕ → OsrmResult) (stops : List Stop) {m n : ℕ}
    (h : m ≤ n) :
    ∃ t, fetchAccum resp stops n = fetchAccum resp stops m ++ t := by
  induction n with
  | zero =>
      have hm : m = 0 := Nat.le_zero.mp h
      subst hm
      exact ⟨[], by simp⟩
  | succ k ih =>
      rcases Nat.eq_or_lt_of_le h with heq | hlt
      · subst heq
        exact ⟨[], by simp⟩
      · obtain ⟨t, ht⟩ := ih (Nat.lt_succ_iff.mp hlt)
        obtain ⟨u, hu⟩ := segStep_extend (fetchAccum resp stops k)
          ((stops.getD k default).coords) ((stops.getD (k + 1) default).coords) (resp k)
        refine ⟨t ++ u, ?_⟩
        show segStep (fetchAccum resp stops k)
          ((stops.getD k default).coords) ((stops.getD (k + 1) default).coords) (resp k)
          = fetchAccum resp stops m ++ (t ++ u)
        rw [hu, ht, List.append_assoc]

theorem fetchRefill_extend (stops : List Stop) (full : List Coord) :
    ∃ t, fetchRefill stops full = full ++ t := by
  unfold fetchRefill
  by_cases h : full.isEmpty = true
  · rw [if_pos h]
    exact ⟨stops.map Stop.coords, rfl⟩
  · rw [if_neg h]
    exact ⟨[], (List.append_nil full).symm⟩

theorem fetchRefill_of_ne_nil (stops : List Stop) (full : List Coord) (h : full ≠ []) :
    fetchRefill stops full = full := by
  unfold fetchRefill
  rw [if_neg (by simpa [List.isEmpty_iff] using h)]

/-- For two or more stops, the returned list extends the loop's final
accumulated list. -/
theorem fetchRoad_eq_accum_extend (resp : ℕ → OsrmResult) (stops : List Stop)
    (h2 : 2 ≤ stops.length) :
    ∃ t, fetchRoadForStops resp stops = fetchAccum resp stops (stops.length - 1) ++ t := by
  match stops, h2 with
  | a :: b :: rest, _ =>
      obtain ⟨t1, ht1⟩ := fetchRefill_extend (a :: b :: rest)
        (fetchAccum resp (a :: b :: rest) ((a :: b :: rest).length - 1))
      obtain ⟨t2, ht2⟩ := fetchRefill_extend (a :: b :: rest)
        (fetchRefill (a :: b :: rest)
          (fetchAccum resp (a :: b :: rest) ((a :: b :: rest).length - 1)))
      refine ⟨t1 ++ t2, ?_⟩
      show fetchRefill (a :: b :: rest)
          (fetchRefill (a :: b :: rest)
            (fetchAccum resp (a :: b :: rest) ((a :: b :: rest).length - 1)))
        = fetchAccum resp (a :: b :: rest) ((a :: b :: rest).length - 1) ++ (t1 ++ t2)
      rw [ht2, ht1, List.append_assoc]

/-- Claim C1: when the OSRM fetch for segment `i` fails (thrown error,
missing routes, or empty geometry), the loop falls back to a straight line
for that pair: it appends the pair's endpoints — the `from` coordinate only
when the accumulated list is still empty, and always the `to` coordinate —
and the accumulated list is only ever extended afterwards, so those
coordinates are part of the returned (drawn) coordinate list. -/
theorem fallback_straight_line_on_failure (resp : ℕ → OsrmResult) (stops : List Stop)
    (i : ℕ) (h2 : 2 ≤ stops.length) (hi : i < stops.length - 1)
    (hfail : osrmFailed (resp i) = true) :
    fetchAccum resp stops (i + 1) =
      (if (fetchAccum resp stops i).isEmpty
        then [(stops.getD i default).coords] else fetchAccum resp stops i)
      ++ [(stops.getD (i + 1) default).coords] ∧
    ∃ t, fetchRoadForStops resp stops = fetchAccum resp stops (i + 1) ++ t := by
  constructor
  · have hsf : fetchAccum resp stops (i + 1) =
        straightFallback (fetchAccum resp stops i)
          ((stops.getD i default).coords) ((stops.getD (i + 1) default).coords) := by
      show segStep (fetchAccum resp stops i)
          ((stops.getD i default).coords) ((stops.getD (i + 1) default).coords) (resp i) = _
      cases hr : resp i with
      | ok seg =>
          have hseg : seg.isEmpty = true := by
            rw [hr] at hfail
            simpa [osrmFailed] using hfail
          simp only [segStep]
          rw [if_pos hseg]
      | noRoutes => rfl
      | fetchError => rfl
    rw [hsf]
    unfold straightFallback
    by_cases hacc : (fetchAccum resp stops i).isEmpty = true
    · rw [if_pos hacc, if_pos hacc, List.isEmpty_iff.mp hacc, List.nil_append]
    · rw [if_neg hacc, if_neg hacc]
  · obtain ⟨t1, ht1⟩ := fetchAccum_extend resp stops
      (show i + 1 ≤ stops.length - 1 from hi)
    obtain ⟨t2, ht2⟩ := fetchRoad_eq_accum_extend resp stops h2
    exact ⟨t1 ++ t2, by rw [ht2, ht1, List.append_assoc]⟩

/-- Claim C1 witness: a concrete failing middle segment appends exactly the
straight-line endpoint. -/
theorem fallback_straight_line_on_failure_witness :
    fetchAccum (fun n => if n = 1 then OsrmResult.fetchError else respSingleton n) stopsABC 2 =
      (if (fetchAccum (fun n => if n = 1 then OsrmResult.fetchError else respSingleton n)
            stopsABC 1).isEmpty
        then [(stopsABC.getD 1 default).coords]
        else fetchAccum (fun n => if n = 1 then OsrmResult.fetchError else respSingleton n)
          stopsABC 1)
      ++ [(stopsABC.getD 2 default).coords] ∧
    ∃ t, fetchRoadForStops (fun n => if n = 1 then OsrmResult.fetchError else respSingleton n)
        stopsABC =
      fetchAccum (fun n => if n = 1 then OsrmResult.fetchError else respSingleton n)
        stopsABC 2 ++ t :=
  fallback_straight_line_on_failure _ stopsABC 1 (by decide) (by decide) (by decide)

/-- Claim C10 counterexample: a successful OSRM segment whose geometry is a
single point equal to the already-accumulated junction appends nothing, so
it is not the case that every per-segment branch appends at least one
coordinate. -/
theorem success_branch_appends_nothing :
    osrmFailed (respSingleton 1) = false ∧
    fetchAccum respSingleton stopsABC 1 = [(0, 0), (1, 0)] ∧
    fetchAccum respSingleton stopsABC 2 = [(0, 0), (1, 0)] := by
  refine ⟨rfl, by decide, by decide⟩

/-- Claim C10 (amended): for every non-empty stop list the returned
coordinate list is non-empty — a single stop yields its own coordinate, and
every per-segment branch leaves the accumulated list non-empty (though the
success branch may append nothing when its singleton geometry equals the
accumulated junction) — so indexing the result at position 0 when creating
the bus marker is always defined. -/
theorem fetch_result_nonempty (resp : ℕ → OsrmResult) (stops : List Stop)
    (hne : stops ≠ []) :
    fetchRoadForStops resp stops ≠ [] ∧
    (∀ acc fromC toC r, segStep acc fromC toC r ≠ []) ∧
    ∃ c, (fetchRoadForStops resp stops).head? = some c := by
  have hmain : fetchRoadForStops resp stops ≠ [] := by
    match stops, hne with
    | [], hne => exact absurd rfl hne
    | [s], _ => simp [fetchRoadForStops]
    | a :: b :: rest, _ =>
        have hacc : fetchAccum resp (a :: b :: rest) ((a :: b :: rest).length - 1) ≠ [] := by
          have hl : (a :: b :: rest).length - 1 = rest.length + 1 := by simp
          rw [hl, fetchAccum]
          exact segStep_ne_nil _ _ _ _
        show fetchRefill (a :: b :: rest)
            (fetchRefill (a :: b :: rest)
              (fetchAccum resp (a :: b :: rest) ((a :: b :: rest).length - 1))) ≠ []
        rw [fetchRefill_of_ne_nil _ _ hacc, fetchRefill_of_ne_nil _ _ hacc]
        exact hacc
  refine ⟨hmain, fun acc fromC toC r => segStep_ne_nil acc fromC toC r, ?_⟩
  match h : fetchRoadForStops resp stops with
  | [] => exact absurd h hmain
  | c :: t => exact ⟨c, rfl⟩

/-- Claim C10 witness: non-emptiness at a concrete input. -/
theorem fetch_result_nonempty_witness :
    fetchRoadForStops respSingleton stopsABC ≠ [] :=
  (fetch_result_nonempty respSingleton stopsABC (by decide)).1

/-! ### The fetch result as a function of the per-segment responses -/

/-- The accumulated list is determined by the responses of the segments
processed so far. -/
theorem fetchAccum_congr (resp resp' : ℕ → OsrmResult) (stops : List Stop) :
    ∀ n, (∀ i < n, resp i = resp' i) →
      fetchAccum resp stops n = fetchAccum resp' stops n := by
  intro n
  induction n with
  | zero => intro _; rfl
  | succ k ih =>
      intro h
      show segStep (fetchAccum resp stops k)
          ((stops.getD k default).coords) ((stops.getD (k + 1) default).coords) (resp k)
        = segStep (fetchAccum resp' stops k)
          ((stops.getD k default).coords) ((stops.getD (k + 1) default).coords) (resp' k)
      rw [ih (fun i hi => h i (Nat.lt_succ_of_lt hi)), h k (Nat.lt_succ_self k)]

theorem joinSegments_append (segs : List (List Coord)) (seg : List Coord) :
    joinSegments (segs ++ [seg]) = joinStep (joinSegments segs) seg := by
  unfold joinSegments
  rw [List.foldl_append]
  rfl

/-- On a successful response with non-empty geometry, the segment loop body
is exactly the spec-side junction-deduplicating append. -/
theorem arraysEqual_eq_true (a b : Coord) : arraysEqual a b = true ↔ a = b := by
  simp [arraysEqual]

theorem segStep_ok_eq_joinStep (acc : List Coord) (fromC toC : Coord)
    (seg : List Coord) (hseg : seg ≠ []) :
    segStep acc fromC toC (OsrmResult.ok seg) = joinStep acc seg := by
  match seg, hseg with
  | c :: rest, _ =>
      simp only [segStep]
      rw [if_neg (by simp)]
      unfold joinStep
      have hcond : (¬ acc.isEmpty = true ∧
          arraysEqual (acc.getLastD (0, 0)) ((c :: rest).headD (0, 0)) = true) ↔
          (acc ≠ [] ∧ (c :: rest).head? = acc.getLast?) := by
        by_cases hacc : acc = []
        · subst hacc
          simp
        · obtain ⟨l, hl⟩ : ∃ l, acc.getLast? = some l :=
            ⟨acc.getLast hacc, List.getLast?_eq_getLast_of_ne_nil hacc⟩
          have hlast : acc.getLastD (0, 0) = l := by
            rw [List.getLastD_eq_getLast?, hl]
            rfl
          constructor
          · rintro ⟨-, h2⟩
            rw [arraysEqual_eq_true, hlast, List.headD_cons] at h2
            exact ⟨hacc, by rw [hl, List.head?_cons, h2]⟩
          · rintro ⟨-, h2⟩
            rw [List.head?_cons, hl] at h2
            refine ⟨by simpa [List.isEmpty_iff] using hacc, ?_⟩
            rw [arraysEqual_eq_true, hlast, List.headD_cons]
            exact (Option.some.inj h2).symm
      rw [if_congr hcond (by rw [List.drop_one]) rfl]

/-- When every segment succeeds with non-empty geometry, the loop computes
the spec-side dedup-concatenation of the per-segment sequences. -/
theorem fetchAccum_eq_joinSegments (resp : ℕ → OsrmResult) (stops : List Stop)
    (segs : ℕ → List Coord) :
    ∀ n, (∀ i < n, resp i = OsrmResult.ok (segs i) ∧ segs i ≠ []) →
      fetchAccum resp stops n = joinSegments ((List.range n).map segs) := by
  intro n
  induction n with
  | zero => intro _; rfl
  | succ k ih =>
      intro hok
      have hacc := ih (fun i hi => hok i (Nat.lt_succ_of_lt hi))
      obtain ⟨hrk, hsegne⟩ := hok k (Nat.lt_succ_self k)
      show segStep (fetchAccum resp stops k)
          ((stops.getD k default).coords) ((stops.getD (k + 1) default).coords) (resp k)
        = _
      rw [hrk, hacc, List.range_succ, List.map_append, List.map_singleton,
        joinSegments_append]
      exact segStep_ok_eq_joinStep _ _ _ _ hsegne

/-- Claim C5: for two or more stops, the fetch makes one OSRM query per
consecutive stop pair — the result depends only on the `stops.length - 1`
per-segment responses — and on all-successful responses it concatenates the
per-segment coordinate sequences in segment order, dropping a segment's
first coordinate exactly when it equals the last coordinate already
accumulated. -/
theorem per_segment_queries_and_dedup_concat (stops : List Stop) (h2 : 2 ≤ stops.length) :
    (∀ resp resp' : ℕ → OsrmResult,
      (∀ i < stops.length - 1, resp i = resp' i) →
      fetchRoadForStops resp stops = fetchRoadForStops resp' stops) ∧
    (∀ (resp : ℕ → OsrmResult) (segs : ℕ → List Coord),
      (∀ i < stops.length - 1, resp i = OsrmResult.ok (segs i) ∧ segs i ≠ []) →
      fetchRoadForStops resp stops =
        joinSegments ((List.range (stops.length - 1)).map segs)) := by
  constructor
  · intro resp resp' h
    match stops, h2, h with
    | a :: b :: rest, _, h =>
        show fetchRefill _ (fetchRefill _ (fetchAccum resp (a :: b :: rest)
            ((a :: b :: rest).length - 1)))
          = fetchRefill _ (fetchRefill _ (fetchAccum resp' (a :: b :: rest)
            ((a :: b :: rest).length - 1)))
        rw [fetchAccum_congr resp resp' (a :: b :: rest) _ h]
  · intro resp segs hok
    match stops, h2, hok with
    | a :: b :: rest, _, hok =>
        have key := fetchAccum_eq_joinSegments resp (a :: b :: rest) segs
          ((a :: b :: rest).length - 1) hok
        have hacc : fetchAccum resp (a :: b :: rest) ((a :: b :: rest).length - 1) ≠ [] := by
          have hl : (a :: b :: rest).length - 1 = rest.length + 1 := by simp
          rw [hl, fetchAccum]
          exact segStep_ne_nil _ _ _ _
        show fetchRefill _ (fetchRefill _ (fetchAccum resp (a :: b :: rest)
            ((a :: b :: rest).length - 1))) = _
        rw [fetchRefill_of_ne_nil _ _ hacc, fetchRefill_of_ne_nil _ _ hacc, key]

/-- Claim C5 witness: the conjunction at a concrete three-stop list. -/
theorem per_segment_queries_and_dedup_concat_witness :
    (∀ resp resp' : ℕ → OsrmResult,
      (∀ i < stopsABC.length - 1, resp i = resp' i) →
      fetchRoadForStops resp stopsABC = fetchRoadForStops resp' stopsABC) ∧
    (∀ (resp : ℕ → OsrmResult) (segs : ℕ → List Coord),
      (∀ i < stopsABC.length - 1, resp i = OsrmResult.ok (segs i) ∧ segs i ≠ []) →
      fetchRoadForStops resp stopsABC =
        joinSegments ((List.range (stopsABC.length - 1)).map segs)) :=
  per_segment_queries_and_dedup_concat stopsABC (by decide)

/-! ### `jsIndexOf` and the route matching -/

/-- A found `indexOf` result is the index of an occurrence. -/
theorem jsIndexOf_found (xs : List String) (x : String) (h : jsIndexOf xs x ≠ -1) :
    ∃ k : ℕ, jsIndexOf xs x = (k : ℤ) ∧ xs[k]? = some x := by
  induction xs with
  | nil => exact absurd rfl h
  | cons y ys ih =>
      by_cases hxy : y = x
      · exact ⟨0, by simp [jsIndexOf, hxy], by simp [hxy]⟩
      · have hys : jsIndexOf ys x ≠ -1 := by
          intro h0
          apply h
          simp [jsIndexOf, hxy, h0]
        obtain ⟨k, hk, hget⟩ := ih hys
        refine ⟨k + 1, ?_, by simpa using hget⟩
        simp only [jsIndexOf, if_neg hxy, if_neg hys, hk]
        push_cast
        ring

/-- On a duplicate-free list, `indexOf` returns the index of the (unique)
occurrence. -/
theorem jsIndexOf_of_get (xs : List String) (x : String) :
    ∀ i : ℕ, xs[i]? = some x → xs.Nodup → jsIndexOf xs x = (i : ℤ) := by
  induction xs with
  | nil =>
      intro i h _
      simp at h
  | cons y ys ih =>
      intro i h hnd
      obtain ⟨hy, hnd'⟩ := List.nodup_cons.mp hnd
      cases i with
      | zero =>
          simp only [List.getElem?_cons_zero, Option.some.injEq] at h
          simp [jsIndexOf, h]
      | succ k =>
          simp only [List.getElem?_cons_succ] at h
          have hxy : y ≠ x := by
            intro he
            obtain ⟨hn, rfl⟩ := List.getElem?_eq_some_iff.mp h
            exact hy (he ▸ List.getElem_mem hn)
          have hk := ih k h hnd'
          have hne : jsIndexOf ys x ≠ -1 := by
            rw [hk]
            omega
          simp only [jsIndexOf, if_neg hxy, if_neg hne, hk]
          push_cast
          ring

/-- The matching condition and the produced sub-list, for a route whose
stop names are duplicate-free. -/
theorem matchedFor_characterization (bn fr toSel : String) (r : Route)
    (hnd : (r.stops.map Stop.name).Nodup) :
    ((matchedFor bn r fr toSel).isSome ↔
      ∃ i j : ℕ, i < j ∧ (r.stops.map Stop.name)[i]? = some fr ∧
        (r.stops.map Stop.name)[j]? = some toSel) ∧
    (∀ m, matchedFor bn r fr toSel = some m →
      m.busName = bn ∧ m.color = r.color ∧
      ∃ i j : ℕ, i < j ∧ (r.stops.map Stop.name)[i]? = some fr ∧
        (r.stops.map Stop.name)[j]? = some toSel ∧
        m.subStops = (r.stops.drop i).take (j + 1 - i)) := by
  have hcond : (jsIndexOf (r.stops.map Stop.name) fr ≠ -1 ∧
      jsIndexOf (r.stops.map Stop.name) toSel ≠ -1 ∧
      jsIndexOf (r.stops.map Stop.name) fr < jsIndexOf (r.stops.map Stop.name) toSel) ↔
      ∃ i j : ℕ, i < j ∧ (r.stops.map Stop.name)[i]? = some fr ∧
        (r.stops.map Stop.name)[j]? = some toSel := by
    constructor
    · rintro ⟨h1, h2, hlt⟩
      obtain ⟨a, ha, hga⟩ := jsIndexOf_found _ _ h1
      obtain ⟨b, hb, hgb⟩ := jsIndexOf_found _ _ h2
      refine ⟨a, b, ?_, hga, hgb⟩
      rw [ha, hb] at hlt
      exact_mod_cast hlt
    · rintro ⟨i, j, hij, hgi, hgj⟩
      have ha := jsIndexOf_of_get _ _ i hgi hnd
      have hb := jsIndexOf_of_get _ _ j hgj hnd
      refine ⟨by rw [ha]; omega, by rw [hb]; omega, ?_⟩
      rw [ha, hb]
      exact_mod_cast hij
  constructor
  · rw [← hcond]
    unfold matchedFor
    by_cases hc : jsIndexOf (r.stops.map Stop.name) fr ≠ -1 ∧
        jsIndexOf (r.stops.map Stop.name) toSel ≠ -1 ∧
        jsIndexOf (r.stops.map Stop.name) fr < jsIndexOf (r.stops.map Stop.name) toSel
    · rw [if_pos hc]
      simpa using hc
    · rw [if_neg hc]
      simpa using hc
  · intro m hm
    unfold matchedFor at hm
    by_cases hc : jsIndexOf (r.stops.map Stop.name) fr ≠ -1 ∧
        jsIndexOf (r.stops.map Stop.name) toSel ≠ -1 ∧
        jsIndexOf (r.stops.map Stop.name) fr < jsIndexOf (r.stops.map Stop.name) toSel
    · rw [if_pos hc] at hm
      obtain ⟨h1, h2, hlt⟩ := hc
      obtain ⟨a, ha, hga⟩ := jsIndexOf_found _ _ h1
      obtain ⟨b, hb, hgb⟩ := jsIndexOf_found _ _ h2
      have hab : a < b := by
        rw [ha, hb] at hlt
        exact_mod_cast hlt
      refine ⟨?_, ?_, a, b, hab, hga, hgb, ?_⟩
      · rw [← Option.some.inj hm]
      · rw [← Option.some.inj hm]
      · rw [← Option.some.inj hm]
        simp only [ha, hb, Int.toNat_ofNat]
    · rw [if_neg hc] at hm
      exact absurd hm (Option.noConfusion)

/-- Claim C2: `startTracking` matches exactly the routes in `ROUTES` in
which the chosen from-stop occurs at a strictly smaller index than the
chosen to-stop (both present), tracking the inclusive sub-list of stops
between the two indices; opposite order or an absent name never matches. -/
theorem route_matching_respects_direction (fr toSel bn : String) (r : Route)
    (hmem : (bn, r) ∈ ROUTES) :
    ((matchedFor bn r fr toSel).isSome ↔
      ∃ i j : ℕ, i < j ∧ (r.stops.map Stop.name)[i]? = some fr ∧
        (r.stops.map Stop.name)[j]? = some toSel) ∧
    (∀ m, matchedFor bn r fr toSel = some m →
      m.busName = bn ∧ m.color = r.color ∧
      ∃ i j : ℕ, i < j ∧ (r.stops.map Stop.name)[i]? = some fr ∧
        (r.stops.map Stop.name)[j]? = some toSel ∧
        m.subStops = (r.stops.drop i).take (j + 1 - i)) ∧
    matchedRoutes ROUTES fr toSel =
      ROUTES.filterMap (fun br => matchedFor br.1 br.2 fr toSel) := by
  have hnd : (r.stops.map Stop.name).Nodup := by
    simp only [ROUTES, List.mem_cons, List.not_mem_nil, or_false] at hmem
    rcases hmem with h | h | h <;>
      · obtain ⟨-, hr⟩ := Prod.mk.injEq .. ▸ h
        subst hr
        decide
  obtain ⟨h1, h2⟩ := matchedFor_characterization bn fr toSel r hnd
  exact ⟨h1, h2, rfl⟩

/-- Claim C2 witness: instantiated on `Bus 101` from Golden Temple to
Bus Stand. -/
theorem route_matching_respects_direction_witness :
    matchedRoutes ROUTES "Golden Temple" "Bus Stand" =
      ROUTES.filterMap (fun br => matchedFor br.1 br.2 "Golden Temple" "Bus Stand") :=
  (route_matching_respects_direction "Golden Temple" "Bus Stand" "Bus 101"
    { color := "#e74c3c"
      stops :=
        [ ⟨"Golden Temple", (31.6200, 74.8765)⟩
        , ⟨"Hall Bazaar", (31.6270, 74.8750)⟩
        , ⟨"Ram Bagh", (31.6315, 74.8778)⟩
        , ⟨"Railway Station", (31.6340, 74.8790)⟩
        , ⟨"Bus Stand", (31.6360, 74.8808)⟩ ] }
    (List.mem_cons_self _ _)).2.2

/-! ### The dropdown contents -/

theorem fromOptions_tail_values (routes : List (String × Route)) :
    (fromOptions routes).tail.map OptionEl.value = sortedStopNames routes := by
  simp [fromOptions, List.map_map, Function.comp_def]

theorem mem_sortedStopNames (routes : List (String × Route)) (n : String) :
    n ∈ sortedStopNames routes ↔ ∃ br ∈ routes, ∃ st ∈ br.2.stops, st.name = n := by
  unfold sortedStopNames stopsSet allStopNames
  rw [List.Perm.mem_iff (List.perm_insertionSort _ _), List.mem_dedup]
  simp

/-- Claim C6: both dropdowns hold exactly the distinct stop names occurring
across `ROUTES`, in ascending order, each preceded by a single placeholder
option with empty value; a name shared by several routes yields one
option. -/
theorem dropdown_options_spec :
    fromOptions ROUTES = toOptions ROUTES ∧
    (fromOptions ROUTES).head? = some placeholderOption ∧
    placeholderOption.value = "" ∧
    List.Sorted (fun a b : String => a ≤ b) ((fromOptions ROUTES).tail.map OptionEl.value) ∧
    ((fromOptions ROUTES).tail.map OptionEl.value).Nodup ∧
    (∀ o ∈ (fromOptions ROUTES).tail, o.value = o.text ∧ o.value ≠ "") ∧
    (∀ n : String, n ∈ (fromOptions ROUTES).tail.map OptionEl.value ↔
      ∃ br ∈ ROUTES, ∃ st ∈ br.2.stops, st.name = n) := by
  refine ⟨rfl, rfl, rfl, ?_, ?_, ?_, ?_⟩
  · rw [fromOptions_tail_values]
    exact List.sorted_insertionSort _ _
  · rw [fromOptions_tail_values]
    exact (List.perm_insertionSort _ _).nodup_iff.mpr (List.nodup_dedup _)
  · intro o ho
    simp only [fromOptions, List.tail_cons, List.mem_map] at ho
    obtain ⟨n, hn, rfl⟩ := ho
    refine ⟨rfl, ?_⟩
    obtain ⟨br, hbr, st, hst, rfl⟩ := (mem_sortedStopNames ROUTES n).mp hn
    fin_cases hbr <;> fin_cases hst <;> decide
  · intro n
    rw [fromOptions_tail_values]
    exact mem_sortedStopNames ROUTES n

/-! ### Registry bookkeeping -/

/-- Object assignment does not introduce a duplicate key. -/
theorem jsSet_keys_nodup {β : Type} (m : List (String × β)) (k : String) (v : β)
    (h : (m.map Prod.fst).Nodup) : ((jsSet m k v).map Prod.fst).Nodup := by
  unfold jsSet
  by_cases hk : m.any (fun p => p.1 == k) = true
  · rw [if_pos hk]
    have hkeys : (m.map (fun p => if p.1 == k then (k, v) else p)).map Prod.fst
        = m.map Prod.fst := by
      rw [List.map_map]
      apply List.map_congr_left
      intro p _
      by_cases hp : p.1 = k
      · simp [hp]
      · simp [hp]
    rw [hkeys]
    exact h
  · rw [if_neg hk, List.map_append]
    refine List.Nodup.append h (List.nodup_singleton k) ?_
    intro a ha hb
    simp only [List.map_cons, List.map_nil, List.mem_singleton] at hb
    subst hb
    rw [List.mem_map] at ha
    obtain ⟨p, hp, hpa⟩ := ha
    exact hk (List.any_eq_true.mpr ⟨p, hp, by rw [hpa, beq_self_eq_true]⟩)

/-- A duplicate-free key list means at most one entry per key. -/
theorem countP_le_one_of_keys_nodup {β : Type} (m : List (String × β)) (k : String)
    (h : (m.map Prod.fst).Nodup) : m.countP (fun p => p.1 == k) ≤ 1 := by
  have hc : m.countP (fun p => p.1 == k) = (m.map Prod.fst).count k := by
    rw [List.count, List.countP_map]
    rfl
  rw [hc]
  exact List.nodup_iff_count_le_one.mp h k

theorem clearActiveVisuals_registriesOk (s : VisualState) :
    RegistriesOk (clearActiveVisuals s) :=
  ⟨List.nodup_nil, List.nodup_nil, List.nodup_nil, List.nodup_nil, rfl⟩

theorem createTimeline_registriesOk (s : VisualState) (bn : String)
    (h : RegistriesOk s) : RegistriesOk (createTimeline s bn) := by
  unfold createTimeline
  by_cases hmem : safeId bn ∈ s.activeTimelines
  · rw [if_pos hmem]
    exact h
  · rw [if_neg hmem]
    obtain ⟨h1, h2, h3, h4, h5⟩ := h
    refine ⟨h1, h2, h3, ?_, by rw [h5]⟩
    refine List.Nodup.append h4 (List.nodup_singleton _) ?_
    intro a ha hb
    rw [List.mem_singleton] at hb
    subst hb
    exact hmem ha

theorem registerAnimation_registriesOk (s : VisualState) (bn : String)
    (h : RegistriesOk s) : RegistriesOk (registerAnimation s bn) := by
  obtain ⟨h1, h2, h3, h4, h5⟩ := h
  unfold registerAnimation
  cases jsGet s.activeAnimations (safeId bn) with
  | some t => exact ⟨h1, h2, jsSet_keys_nodup _ _ _ h3, h4, h5⟩
  | none => exact ⟨h1, h2, jsSet_keys_nodup _ _ _ h3, h4, h5⟩

theorem setupBus_registriesOk (resp : String → ℕ → OsrmResult) (s : VisualState)
    (m : Matched) (h : RegistriesOk s) : RegistriesOk (setupBus resp s m) := by
  apply registerAnimation_registriesOk
  have h1 := createTimeline_registriesOk s m.busName h
  obtain ⟨g1, g2, g3, g4, g5⟩ := h1
  exact ⟨jsSet_keys_nodup _ _ _ g1, jsSet_keys_nodup _ _ _ g2, g3, g4, g5⟩

theorem startTrackingVisuals_registriesOk (resp : String → ℕ → OsrmResult)
    (s : VisualState) (matched : List Matched) :
    RegistriesOk (startTrackingVisuals resp s matched) := by
  unfold startTrackingVisuals
  have hgen : ∀ (l : List Matched) (st : VisualState), RegistriesOk st →
      RegistriesOk (l.foldl (setupBus resp) st) := by
    intro l
    induction l with
    | nil => intro st hst; exact hst
    | cons m ms ih =>
        intro st hst
        exact ih _ (setupBus_registriesOk resp st m hst)
  exact hgen matched _ (clearActiveVisuals_registriesOk s)

/-- A timer recorded in `activeAnimations` is cancelled by the clear. -/
theorem cleared_timer_cancelled (s : VisualState) (bn : String) (t : ℕ)
    (h : jsGet s.activeAnimations bn = some t) :
    t ∉ (clearActiveVisuals s).liveTimers := by
  intro hm
  replace hm : t ∈ s.liveTimers.filter
      (fun u => !(s.activeAnimations.any (fun p => p.2 == u))) := hm
  obtain ⟨-, hflt⟩ := List.mem_filter.mp hm
  unfold jsGet at h
  cases hfind : s.activeAnimations.find? (fun p => p.1 == bn) with
  | none =>
      rw [hfind] at h
      exact Option.noConfusion h
  | some p =>
      rw [hfind] at h
      have hp : p ∈ s.activeAnimations := List.mem_of_find?_eq_some hfind
      have hpt : p.2 = t := Option.some.inj h
      have hany : s.activeAnimations.any (fun q => q.2 == t) = true :=
        List.any_eq_true.mpr ⟨p, hp, by rw [hpt, beq_self_eq_true]⟩
      rw [hany] at hflt
      exact Bool.noConfusion hflt

/-- Claim C7: an accepted `startTracking` call re-renders through
`clearActiveVisuals`, which empties every registry and the timeline
container and cancels every pending animation timer; `createTimeline` skips
a bus that already has a timeline; and after the re-render every bus has at
most one polyline, one marker, one timeline container, and one animation
registry entry (hence one pending step timer). -/
theorem one_visual_per_bus (resp : String → ℕ → OsrmResult)
    (routes : List (String × Route)) (s : VisualState) (fr toSel : String)
    (hfr : fr ≠ "") (hto : toSel ≠ "") (hm : matchedRoutes routes fr toSel ≠ []) :
    (startTracking resp routes fr toSel s).1 =
      startTrackingVisuals resp s (matchedRoutes routes fr toSel) ∧
    ((clearActiveVisuals s).activePolylines = [] ∧
     (clearActiveVisuals s).activeMarkers = [] ∧
     (clearActiveVisuals s).activeAnimations = [] ∧
     (clearActiveVisuals s).activeTimelines = [] ∧
     (clearActiveVisuals s).timelineDom = [] ∧
     ∀ bn t, jsGet s.activeAnimations bn = some t →
       t ∉ (clearActiveVisuals s).liveTimers) ∧
    (∀ (s' : VisualState) (bn : String),
      safeId bn ∈ s'.activeTimelines → createTimeline s' bn = s') ∧
    (∀ bn : String,
      (startTracking resp routes fr toSel s).1.activePolylines.countP
        (fun p => p.1 == safeId bn) ≤ 1 ∧
      (startTracking resp routes fr toSel s).1.activeMarkers.countP
        (fun p => p.1 == safeId bn) ≤ 1 ∧
      (startTracking resp routes fr toSel s).1.activeAnimations.countP
        (fun p => p.1 == safeId bn) ≤ 1 ∧
      (startTracking resp routes fr toSel s).1.activeTimelines.count (safeId bn) ≤ 1 ∧
      (startTracking resp routes fr toSel s).1.timelineDom.count (safeId bn) ≤ 1) := by
  have hsel : ¬ (fr = "" ∨ toSel = "") := by
    rintro (h | h)
    · exact hfr h
    · exact hto h
  have hmain : (startTracking resp routes fr toSel s).1 =
      startTrackingVisuals resp s (matchedRoutes routes fr toSel) := by
    unfold startTracking
    rw [if_neg hsel, if_neg (by simpa [List.isEmpty_iff] using hm)]
  refine ⟨hmain, ⟨rfl, rfl, rfl, rfl, rfl, fun bn t h => cleared_timer_cancelled s bn t h⟩,
    ?_, ?_⟩
  · intro s' bn hmem
    unfold createTimeline
    rw [if_pos hmem]
  · intro bn
    have hok := startTrackingVisuals_registriesOk resp s (matchedRoutes routes fr toSel)
    rw [hmain]
    obtain ⟨h1, h2, h3, h4, h5⟩ := hok
    refine ⟨countP_le_one_of_keys_nodup _ _ h1, countP_le_one_of_keys_nodup _ _ h2,
      countP_le_one_of_keys_nodup _ _ h3, List.nodup_iff_count_le_one.mp h4 _, ?_⟩
    rw [h5]
    exact List.nodup_iff_count_le_one.mp h4 _

/-- Claim C7 witness: at concrete selections and an empty initial state. -/
theorem one_visual_per_bus_witness :
    (startTracking (fun _ _ => OsrmResult.fetchError) ROUTES
        "Golden Temple" "Bus Stand" ⟨[], [], [], [], [], [], 0⟩).1 =
      startTrackingVisuals (fun _ _ => OsrmResult.fetchError) ⟨[], [], [], [], [], [], 0⟩
        (matchedRoutes ROUTES "Golden Temple" "Bus Stand") :=
  (one_visual_per_bus (fun _ _ => OsrmResult.fetchError) ROUTES
    ⟨[], [], [], [], [], [], 0⟩ "Golden Temple" "Bus Stand"
    (by decide) (by decide) (by simp [matchedRoutes, ROUTES, matchedFor, jsIndexOf])).1

/-- Claim C9: rejected input — an empty selection or a pair no route serves
in that direction — produces only an alert and leaves the state (layers,
registries, timelines, timers) unchanged: `startTracking` returns before
`clearActiveVisuals` runs. -/
theorem rejected_input_is_atomic (resp : String → ℕ → OsrmResult)
    (routes : List (String × Route)) (fr toSel : String) (s : VisualState)
    (h : fr = "" ∨ toSel = "" ∨ matchedRoutes routes fr toSel = []) :
    (startTracking resp routes fr toSel s).1 = s ∧
    ∃ msg, (startTracking resp routes fr toSel s).2 = [TrackAction.alert msg] := by
  unfold startTracking
  by_cases hsel : fr = "" ∨ toSel = ""
  · rw [if_pos hsel]
    exact ⟨rfl, _, rfl⟩
  · rw [if_neg hsel]
    have hm : matchedRoutes routes fr toSel = [] := by
      rcases h with h | h | h
      · exact absurd (Or.inl h) hsel
      · exact absurd (Or.inr h) hsel
      · exact h
    rw [if_pos (by simp [hm])]
    exact ⟨rfl, _, rfl⟩

/-- Claim C9 witness: an empty from-selection at a concrete state. -/
theorem rejected_input_is_atomic_witness :
    (startTracking (fun _ _ => OsrmResult.fetchError) ROUTES "" "Bus Stand"
        ⟨[("x", [])], [], [("x", 7)], ["x"], ["x"], [7], 8⟩).1 =
      ⟨[("x", [])], [], [("x", 7)], ["x"], ["x"], [7], 8⟩ :=
  (rejected_input_is_atomic (fun _ _ => OsrmResult.fetchError) ROUTES "" "Bus Stand"
    ⟨[("x", [])], [], [("x", 7)], ["x"], ["x"], [7], 8⟩ (Or.inl rfl)).1

/-! ### The marker animation -/

theorem popupRefresh_untouched (s : AnimState) (i : ℕ) :
    (popupRefresh s i).idx = s.idx ∧
    (popupRefresh s i).nextStopIndex = s.nextStopIndex ∧
    (popupRefresh s i).markerPos = s.markerPos ∧
    (popupRefresh s i).markerTrace = s.markerTrace ∧
    (popupRefresh s i).pills = s.pills ∧
    (popupRefresh s i).fx = s.fx := by
  unfold popupRefresh
  by_cases h : i % 10 = 0
  · rw [if_pos h]
    exact ⟨rfl, rfl, rfl, rfl, rfl, rfl⟩
  · rw [if_neg h]
    exact ⟨rfl, rfl, rfl, rfl, rfl, rfl⟩

theorem proximityUpdate_untouched {α : Type} [LinearOrderedField α] [FloorRing α]
    (dm : Coord → Coord → α) (caps : Caps) (busName : String)
    (stops : List Stop) (p : Coord) (s : AnimState) :
    (proximityUpdate dm caps busName stops p s).idx = s.idx ∧
    (proximityUpdate dm caps busName stops p s).markerPos = s.markerPos ∧
    (proximityUpdate dm caps busName stops p s).markerTrace = s.markerTrace := by
  unfold proximityUpdate
  by_cases h : s.nextStopIndex < stops.length
  · rw [if_pos h]
    cases hp : s.pills.get? s.nextStopIndex with
    | none => exact ⟨rfl, rfl, rfl⟩
    | some pill =>
        dsimp only
        by_cases hd : dm p (stops.getD s.nextStopIndex default).coords
            < ((ARRIVAL_THRESHOLD_M : ℕ) : α)
        · rw [if_pos hd]
          exact ⟨rfl, rfl, rfl⟩
        · rw [if_neg hd]
          exact ⟨rfl, rfl, rfl⟩
  · rw [if_neg h]
    exact ⟨rfl, rfl, rfl⟩

/-- The arrival/ETA branches of the proximity check, when the next stop and
its pill exist. -/
theorem proximityUpdate_cases {α : Type} [LinearOrderedField α] [FloorRing α]
    (dm : Coord → Coord → α) (caps : Caps) (busName : String)
    (stops : List Stop) (p : Coord) (s : AnimState) (pill : Pill)
    (hnext : s.nextStopIndex < stops.length)
    (hpill : s.pills.get? s.nextStopIndex = some pill) :
    (dm p (stops.getD s.nextStopIndex default).coords < ((ARRIVAL_THRESHOLD_M : ℕ) : α) →
      proximityUpdate dm caps busName stops p s =
        { s with
          pills := s.pills.set s.nextStopIndex ⟨true, EtaText.arrived⟩
          fx := s.fx ++ arrivalEffects caps
            (busName ++ " has arrived at " ++ (stops.getD s.nextStopIndex default).name)
          nextStopIndex := s.nextStopIndex + 1 }) ∧
    (¬ dm p (stops.getD s.nextStopIndex default).coords < ((ARRIVAL_THRESHOLD_M : ℕ) : α) →
      proximityUpdate dm caps busName stops p s =
        { s with
          pills := s.pills.set s.nextStopIndex
            ⟨pill.active, EtaText.minutes (max 1 (round
              (dm p (stops.getD s.nextStopIndex default).coords / 200)))⟩ }) := by
  unfold proximityUpdate
  rw [if_pos hnext, hpill]
  dsimp only
  constructor
  · intro hd
    rw [if_pos hd]
  · intro hd
    rw [if_neg hd]

/-- The body of `step()` below the end-of-route return. -/
theorem stepOnce_of_lt {α : Type} [LinearOrderedField α] [FloorRing α]
    (dm : Coord → Coord → α) (caps : Caps) (busName : String)
    (coords : List Coord) (stops : List Stop) (s : AnimState)
    (h : s.idx < coords.length) :
    stepOnce dm caps busName coords stops s =
      { proximityUpdate dm caps busName stops (coords.getD s.idx (0, 0))
          (popupRefresh
            { s with
              markerPos := coords.getD s.idx (0, 0)
              markerTrace := s.markerTrace ++ [coords.getD s.idx (0, 0)] }
            s.idx)
        with idx := s.idx + 1 } := by
  unfold stepOnce
  rw [if_neg (Nat.not_le.mpr h)]

/-- A `step()` past the end of the route leaves everything unchanged. -/
theorem stepOnce_at_end {α : Type} [LinearOrderedField α] [FloorRing α]
    (dm : Coord → Coord → α) (caps : Caps) (busName : String)
    (coords : List Coord) (stops : List Stop) (s : AnimState)
    (h : coords.length ≤ s.idx) :
    stepOnce dm caps busName coords stops s = s := by
  unfold stepOnce
  rw [if_pos h]

/-- The marker movement and index advance of one `step()`. -/
theorem stepOnce_components {α : Type} [LinearOrderedField α] [FloorRing α]
    (dm : Coord → Coord → α) (caps : Caps) (busName : String)
    (coords : List Coord) (stops : List Stop) (s : AnimState)
    (h : s.idx < coords.length) :
    (stepOnce dm caps busName coords stops s).idx = s.idx + 1 ∧
    (stepOnce dm caps busName coords stops s).markerTrace
      = s.markerTrace ++ [coords.getD s.idx (0, 0)] ∧
    (stepOnce dm caps busName coords stops s).markerPos = coords.getD s.idx (0, 0) := by
  rw [stepOnce_of_lt dm caps busName coords stops s h]
  obtain ⟨-, -, hpos, htr, -, -⟩ := popupRefresh_untouched
    { s with
      markerPos := coords.getD s.idx (0, 0)
      markerTrace := s.markerTrace ++ [coords.getD s.idx (0, 0)] } s.idx
  obtain ⟨-, hppos, hptr⟩ := proximityUpdate_untouched dm caps busName stops
    (coords.getD s.idx (0, 0))
    (popupRefresh
      { s with
        markerPos := coords.getD s.idx (0, 0)
        markerTrace := s.markerTrace ++ [coords.getD s.idx (0, 0)] }
      s.idx)
  exact ⟨rfl, by rw [show ∀ t : AnimState, ({ t with idx := s.idx + 1 } : AnimState).markerTrace
      = t.markerTrace from fun t => rfl, hptr, htr],
    by rw [show ∀ t : AnimState, ({ t with idx := s.idx + 1 } : AnimState).markerPos
      = t.markerPos from fun t => rfl, hppos, hpos]⟩

/-- Starting fields of the animation state. -/
theorem animInit_components (caps : Caps) (busName : String) (stops : List Stop)
    (m0 : Coord) (pills : List Pill) :
    (animInit caps busName stops m0 pills).idx = 0 ∧
    (animInit caps busName stops m0 pills).nextStopIndex = 1 ∧
    (animInit caps busName stops m0 pills).markerPos = m0 ∧
    (animInit caps busName stops m0 pills).markerTrace = [] := by
  unfold animInit
  by_cases h : 0 < stops.length
  · rw [if_pos h]
    cases pills.get? 0 with
    | none => exact ⟨rfl, rfl, rfl, rfl⟩
    | some pill => exact ⟨rfl, rfl, rfl, rfl⟩
  · rw [if_neg h]
    exact ⟨rfl, rfl, rfl, rfl⟩

/-- Running the scheduled steps walks the marker through the whole
coordinate list. -/
theorem animRun_reaches_end {α : Type} [LinearOrderedField α] [FloorRing α]
    (dm : Coord → Coord → α) (caps : Caps) (busName : String)
    (coords : List Coord) (stops : List Stop) :
    ∀ (k : ℕ) (s : AnimState), coords.length - s.idx ≤ k → s.idx ≤ coords.length →
      s.markerTrace = coords.take s.idx →
      (0 < s.idx → s.markerPos = coords.getD (s.idx - 1) (0, 0)) →
      (animRun dm caps busName coords stops s).idx = coords.length ∧
      (animRun dm caps busName coords stops s).markerTrace = coords ∧
      (0 < coords.length →
        (animRun dm caps busName coords stops s).markerPos
          = coords.getD (coords.length - 1) (0, 0)) := by
  intro k
  induction k with
  | zero =>
      intro s hk hle htr hpos
      have hidx : s.idx = coords.length := by omega
      rw [animRun, dif_neg (by omega)]
      refine ⟨hidx, ?_, ?_⟩
      · rw [htr, hidx, List.take_length]
      · intro h0
        rw [hpos (by omega), hidx]
  | succ n ih =>
      intro s hk hle htr hpos
      by_cases hlt : s.idx < coords.length
      · rw [animRun, dif_pos hlt]
        obtain ⟨h1, h2, h3⟩ := stepOnce_components dm caps busName coords stops s hlt
        have hgetD : coords.getD s.idx (0, 0) = coords[s.idx] := by
          rw [List.getD_eq_getD_get?, List.get?_eq_get hlt]
          rfl
        have htake : coords.take (s.idx + 1) = coords.take s.idx ++ [coords[s.idx]] := by
          rw [List.take_succ, List.getElem?_eq_getElem hlt]
          rfl
        apply ih
        · omega
        · omega
        · rw [h2, h1, htr, htake, hgetD]
        · intro _
          rw [h3, h1, Nat.add_sub_cancel, hgetD]
      · have hidx : s.idx = coords.length := by omega
        rw [animRun, dif_neg (by omega)]
        refine ⟨hidx, ?_, ?_⟩
        · rw [htr, hidx, List.take_length]
        · intro h0
          rw [hpos (by omega), hidx]

/-- Claim C4: for a non-empty coordinate list, the animation moves the
marker through the list in order — each timer step positions the marker at
the current index and advances the index by exactly one — stepping is a
no-op once the index reaches the list's length, and the marker ends at the
last coordinate. -/
theorem marker_steps_through_coords {α : Type} [LinearOrderedField α] [FloorRing α]
    (dm : Coord → Coord → α) (caps : Caps) (busName : String)
    (coords : List Coord) (stops : List Stop) (m0 : Coord) (pills : List Pill)
    (hne : coords ≠ []) :
    (∀ s : AnimState, s.idx < coords.length →
      (stepOnce dm caps busName coords stops s).idx = s.idx + 1 ∧
      (stepOnce dm caps busName coords stops s).markerTrace
        = s.markerTrace ++ [coords.getD s.idx (0, 0)] ∧
      (stepOnce dm caps busName coords stops s).markerPos
        = coords.getD s.idx (0, 0)) ∧
    (∀ s : AnimState, coords.length ≤ s.idx →
      stepOnce dm caps busName coords stops s = s) ∧
    ∃ final : AnimState,
      animateAlongRoad dm caps busName coords (some m0) stops pills = some final ∧
      final.idx = coords.length ∧
      final.markerTrace = coords ∧
      final.markerPos = coords.getLast hne := by
  refine ⟨fun s h => stepOnce_components dm caps busName coords stops s h,
    fun s h => stepOnce_at_end dm caps busName coords stops s h, ?_⟩
  obtain ⟨hi, -, -, htr⟩ := animInit_components caps busName stops m0 pills
  obtain ⟨f1, f2, f3⟩ := animRun_reaches_end dm caps busName coords stops
    coords.length (animInit caps busName stops m0 pills)
    (by omega) (by omega) (by rw [htr, hi]; rfl) (by rw [hi]; omega)
  refine ⟨animRun dm caps busName coords stops (animInit caps busName stops m0 pills),
    ?_, f1, f2, ?_⟩
  · unfold animateAlongRoad
    dsimp only
    rw [if_neg (by simpa [List.isEmpty_iff] using hne)]
  · have hlen : 0 < coords.length := List.length_pos.mpr hne
    rw [f3 hlen, List.getLast_eq_getElem, List.getD_eq_getD_get?,
      List.get?_eq_get (by omega : coords.length - 1 < coords.length)]
    rfl

/-- Claim C4 witness: a two-point road at a concrete input. -/
theorem marker_steps_through_coords_witness :
    ∃ final : AnimState,
      animateAlongRoad (fun _ _ => (0 : ℚ)) ⟨true, true, true, true⟩ "Bus"
        [((0 : ℚ), (0 : ℚ)), ((1 : ℚ), (0 : ℚ))] (some (0, 0)) stopsABC
        (freshPills stopsABC) = some final ∧
      final.idx = 2 ∧
      final.markerTrace = [((0 : ℚ), (0 : ℚ)), ((1 : ℚ), (0 : ℚ))] ∧
      final.markerPos = ((1 : ℚ), (0 : ℚ)) := by
  obtain ⟨-, -, final, heq, hidx, htr, hpos⟩ :=
    marker_steps_through_coords (fun _ _ => (0 : ℚ)) ⟨true, true, true, true⟩ "Bus"
      [((0 : ℚ), (0 : ℚ)), ((1 : ℚ), (0 : ℚ))] stopsABC (0, 0) (freshPills stopsABC)
      (by decide)
  exact ⟨final, heq, hidx, htr, hpos⟩

/-- Claim C3: during the animation, the next unvisited stop's pill is
flipped to visited (`active` class, `Arrived` text, `nextStopIndex`
advanced) exactly when the haversine distance computed by `distanceMeters`
(Earth radius 6,371,000 m) from the marker's current coordinate to that
stop is strictly less than 120 m; otherwise the pill's ETA text is set to
`max 1 (round (d / 200))` minutes. -/
theorem pill_flip_exactly_at_threshold (caps : Caps) (busName : String)
    (coords : List Coord) (stops : List Stop) (s : AnimState) (pill : Pill)
    (hidx : s.idx < coords.length) (hnext : s.nextStopIndex < stops.length)
    (hpill : s.pills.get? s.nextStopIndex = some pill) :
    (distanceMeters ((coords.getD s.idx (0, 0)).1 : ℝ) ((coords.getD s.idx (0, 0)).2 : ℝ)
        ((stops.getD s.nextStopIndex default).coords.1 : ℝ)
        ((stops.getD s.nextStopIndex default).coords.2 : ℝ) < 120 →
      (stepOnce distCoord caps busName coords stops s).pills
        = s.pills.set s.nextStopIndex ⟨true, EtaText.arrived⟩ ∧
      (stepOnce distCoord caps busName coords stops s).nextStopIndex
        = s.nextStopIndex + 1) ∧
    (¬ distanceMeters ((coords.getD s.idx (0, 0)).1 : ℝ) ((coords.getD s.idx (0, 0)).2 : ℝ)
        ((stops.getD s.nextStopIndex default).coords.1 : ℝ)
        ((stops.getD s.nextStopIndex default).coords.2 : ℝ) < 120 →
      (stepOnce distCoord caps busName coords stops s).pills
        = s.pills.set s.nextStopIndex
          ⟨pill.active, EtaText.minutes (max 1 (round
            (distanceMeters ((coords.getD s.idx (0, 0)).1 : ℝ)
              ((coords.getD s.idx (0, 0)).2 : ℝ)
              ((stops.getD s.nextStopIndex default).coords.1 : ℝ)
              ((stops.getD s.nextStopIndex default).coords.2 : ℝ) / 200)))⟩ ∧
      (stepOnce distCoord caps busName coords stops s).nextStopIndex
        = s.nextStopIndex) := by
  have hth : ((ARRIVAL_THRESHOLD_M : ℕ) : ℝ) = (120 : ℝ) := by
    norm_num [ARRIVAL_THRESHOLD_M]
  rw [stepOnce_of_lt distCoord caps busName coords stops s hidx]
  set M := popupRefresh
    { s with
      markerPos := coords.getD s.idx (0, 0)
      markerTrace := s.markerTrace ++ [coords.getD s.idx (0, 0)] } s.idx with hM
  have hMnext : M.nextStopIndex = s.nextStopIndex :=
    (popupRefresh_untouched _ _).2.1
  have hMpills : M.pills = s.pills :=
    (popupRefresh_untouched _ _).2.2.2.2.1
  have hnext' : M.nextStopIndex < stops.length := by
    rw [hMnext]
    exact hnext
  have hpill' : M.pills.get? M.nextStopIndex = some pill := by
    rw [hMpills, hMnext]
    exact hpill
  have hcases := proximityUpdate_cases distCoord caps busName stops
    (coords.getD s.idx (0, 0)) M pill hnext' hpill'
  constructor
  · intro hd
    have hd' : distCoord (coords.getD s.idx (0, 0))
        (stops.getD M.nextStopIndex default).coords < ((ARRIVAL_THRESHOLD_M : ℕ) : ℝ) := by
      rw [hMnext, hth]
      exact hd
    rw [hcases.1 hd']
    constructor
    · show M.pills.set M.nextStopIndex ⟨true, EtaText.arrived⟩ = _
      rw [hMpills, hMnext]
    · show M.nextStopIndex + 1 = _
      rw [hMnext]
  · intro hd
    have hd' : ¬ distCoord (coords.getD s.idx (0, 0))
        (stops.getD M.nextStopIndex default).coords < ((ARRIVAL_THRESHOLD_M : ℕ) : ℝ) := by
      rw [hMnext, hth]
      exact hd
    rw [hcases.2 hd']
    constructor
    · show M.pills.set M.nextStopIndex
          ⟨pill.active, EtaText.minutes (max 1 (round
            (distCoord (coords.getD s.idx (0, 0))
              (stops.getD M.nextStopIndex default).coords / 200)))⟩ = _
      rw [hMpills, hMnext]
      rfl
    · show M.nextStopIndex = _
      rw [hMnext]

/-- Claim C3 witness: the threshold dichotomy at a concrete state. -/
theorem pill_flip_exactly_at_threshold_witness :
    (distanceMeters ((coordsW.getD stateW.idx (0, 0)).1 : ℝ)
        ((coordsW.getD stateW.idx (0, 0)).2 : ℝ)
        ((stopsABC.getD stateW.nextStopIndex default).coords.1 : ℝ)
        ((stopsABC.getD stateW.nextStopIndex default).coords.2 : ℝ) < 120 →
      (stepOnce distCoord capsAll "Bus" coordsW stopsABC stateW).pills
        = stateW.pills.set stateW.nextStopIndex ⟨true, EtaText.arrived⟩ ∧
      (stepOnce distCoord capsAll "Bus" coordsW stopsABC stateW).nextStopIndex
        = stateW.nextStopIndex + 1) ∧
    (¬ distanceMeters ((coordsW.getD stateW.idx (0, 0)).1 : ℝ)
        ((coordsW.getD stateW.idx (0, 0)).2 : ℝ)
        ((stopsABC.getD stateW.nextStopIndex default).coords.1 : ℝ)
        ((stopsABC.getD stateW.nextStopIndex default).coords.2 : ℝ) < 120 →
      (stepOnce distCoord capsAll "Bus" coordsW stopsABC stateW).pills
        = stateW.pills.set stateW.nextStopIndex
          ⟨(Pill.mk false EtaText.dashes).active, EtaText.minutes (max 1 (round
            (distanceMeters ((coordsW.getD stateW.idx (0, 0)).1 : ℝ)
              ((coordsW.getD stateW.idx (0, 0)).2 : ℝ)
              ((stopsABC.getD stateW.nextStopIndex default).coords.1 : ℝ)
              ((stopsABC.getD stateW.nextStopIndex default).coords.2 : ℝ) / 200)))⟩ ∧
      (stepOnce distCoord capsAll "Bus" coordsW stopsABC stateW).nextStopIndex
        = stateW.nextStopIndex) :=
  pill_flip_exactly_at_threshold capsAll "Bus" coordsW stopsABC stateW
    ⟨false, EtaText.dashes⟩ (by decide) (by decide) (by decide)

/-- Claim C8: whenever a stop is marked reached — the first stop on
animation start, and a later stop when the marker comes within the arrival
threshold — the notification fires exactly when the Notification API is
available and permission granted, the vibration exactly when the vibrate
API is supported, and the sound replay exactly when the sound object is
loaded; a step that reaches no stop fires none of them. -/
theorem reached_stop_effects {α : Type} [LinearOrderedField α] [FloorRing α]
    (dm : Coord → Coord → α) (caps : Caps) (busName : String) :
    (∀ msg : String,
      ((Effect.notify msg ∈ arrivalEffects caps msg) ↔
        caps.notifAvailable = true ∧ caps.notifGranted = true) ∧
      ((Effect.vibrate ∈ arrivalEffects caps msg) ↔ caps.vibrateSupported = true) ∧
      ((Effect.playSound ∈ arrivalEffects caps msg) ↔ caps.soundLoaded = true)) ∧
    (∀ (stops : List Stop) (m0 : Coord) (pills : List Pill) (pill0 : Pill),
      stops ≠ [] → pills.get? 0 = some pill0 →
      (animInit caps busName stops m0 pills).fx =
        arrivalEffects caps
          (busName ++ " has started at " ++ (stops.getD 0 default).name)) ∧
    (∀ (coords : List Coord) (stops : List Stop) (s : AnimState) (pill : Pill),
      s.idx < coords.length → s.nextStopIndex < stops.length →
      s.pills.get? s.nextStopIndex = some pill →
      (dm (coords.getD s.idx (0, 0)) (stops.getD s.nextStopIndex default).coords
          < ((ARRIVAL_THRESHOLD_M : ℕ) : α) →
        (stepOnce dm caps busName coords stops s).fx =
          s.fx ++ arrivalEffects caps
            (busName ++ " has arrived at " ++ (stops.getD s.nextStopIndex default).name)) ∧
      (¬ dm (coords.getD s.idx (0, 0)) (stops.getD s.nextStopIndex default).coords
          < ((ARRIVAL_THRESHOLD_M : ℕ) : α) →
        (stepOnce dm caps busName coords stops s).fx = s.fx)) := by
  refine ⟨?_, ?_, ?_⟩
  · intro msg
    unfold arrivalEffects
    cases hna : caps.notifAvailable <;> cases hng : caps.notifGranted <;>
      cases hv : caps.vibrateSupported <;> cases hs : caps.soundLoaded <;>
        simp
  · intro stops m0 pills pill0 hne hp0
    unfold animInit
    rw [if_pos (List.length_pos.mpr hne), hp0]
  · intro coords stops s pill hidx hnext hpill
    rw [stepOnce_of_lt dm caps busName coords stops s hidx]
    set M := popupRefresh
      { s with
        markerPos := coords.getD s.idx (0, 0)
        markerTrace := s.markerTrace ++ [coords.getD s.idx (0, 0)] } s.idx with hM
    have hMnext : M.nextStopIndex = s.nextStopIndex :=
      (popupRefresh_untouched _ _).2.1
    have hMpills : M.pills = s.pills :=
      (popupRefresh_untouched _ _).2.2.2.2.1
    have hMfx : M.fx = s.fx :=
      (popupRefresh_untouched _ _).2.2.2.2.2
    have hnext' : M.nextStopIndex < stops.length := by
      rw [hMnext]
      exact hnext
    have hpill' : M.pills.get? M.nextStopIndex = some pill := by
      rw [hMpills, hMnext]
      exact hpill
    have hcases := proximityUpdate_cases dm caps busName stops
      (coords.getD s.idx (0, 0)) M pill hnext' hpill'
    constructor
    · intro hd
      have hd' : dm (coords.getD s.idx (0, 0))
          (stops.getD M.nextStopIndex default).coords < ((ARRIVAL_THRESHOLD_M : ℕ) : α) := by
        rw [hMnext]
        exact hd
      rw [hcases.1 hd']
      show M.fx ++ arrivalEffects caps
          (busName ++ " has arrived at " ++ (stops.getD M.nextStopIndex default).name) = _
      rw [hMfx, hMnext]
    · intro hd
      have hd' : ¬ dm (coords.getD s.idx (0, 0))
          (stops.getD M.nextStopIndex default).coords < ((ARRIVAL_THRESHOLD_M : ℕ) : α) := by
        rw [hMnext]
        exact hd
      rw [hcases.2 hd']
      show M.fx = _
      rw [hMfx]

/-- Claim C8 witness: the start-of-animation effects at a concrete input. -/
theorem reached_stop_effects_witness :
    (animInit capsAll "Bus" stopsABC (0, 0) (freshPills stopsABC)).fx =
      arrivalEffects capsAll
        ("Bus" ++ " has started at " ++ (stopsABC.getD 0 default).name) :=
  (reached_stop_effects (fun _ _ => (0 : ℚ)) capsAll "Bus").2.1
    stopsABC (0, 0) (freshPills stopsABC) ⟨false, EtaText.dashes⟩
    (by decide) (by decide)

end TrackMyBus
